import Mathlib

/-!
Verification of the G-code emission core of rpt2pnp (`src/gcode-machine.cc`).

The machine converts per-operation inputs (component identity, board-relative
position/rotation, tape-reel state, pad geometry) into a stream of command
blocks.  We embed the data model and the five operations (`Init`, `PickPart`,
`PlacePart`, `Dispense`, `Finish`) shallowly:

* all coordinates, heights and angles are rationals (the exact values of the
  arithmetic the source performs on floats); only the trigonometric part of
  `Dispense` lives in `ℝ`;
* the stdout command stream is a `List Block`, one `Block` constructor per
  printf-template of the source; stderr diagnostics are a `List Diag`;
* `fmod` is C's `fmod` (truncated remainder, sign of the dividend), defined
  exactly;
* a dereference of the stored configuration while it is null (undefined
  behaviour in the source) is modelled by an `Option`-valued result that is
  `none` exactly in that case.
-/

namespace Rpt2pnp

/-- Truncation toward zero of a rational (the conversion C applies inside
`fmod`). -/
def qtrunc (q : ℚ) : ℤ := if 0 ≤ q then ⌊q⌋ else ⌈q⌉

/-- C's `fmod x y`: the truncated remainder `x - y * trunc (x / y)`.  For
`y > 0` the result has the sign of `x` and magnitude `< y`. -/
def fmod (x y : ℚ) : ℚ := x - y * qtrunc (x / y)

/-- The mathematical modulus `x - y * ⌊x / y⌋`; for `y > 0` the result lies
in `[0, y)`. -/
def mathMod (x y : ℚ) : ℚ := x - y * ⌊x / y⌋

/-- `#define Z_HOVERING 10` — hover clearance while transporting a component. -/
def Z_HOVERING : ℚ := 10

/-- `#define TAPE_THICK 0.0`. -/
def TAPE_THICK : ℚ := 0

/-- `#define ANGLE_FACTOR (50.34965 / 360)` — maps 360 degrees to one turn of
the rotation axis. -/
def ANGLE_FACTOR : ℚ := 50.34965 / 360

/-- `#define TO_TAPE_SPEED 1000` (mm/s). -/
def TO_TAPE_SPEED : ℚ := 1000

/-- `#define TO_BOARD_SPEED 100` (mm/s). -/
def TO_BOARD_SPEED : ℚ := 100

/-- `#define Z_DISPENSING_ABOVE 0.3`. -/
def Z_DISPENSING_ABOVE : ℚ := 0.3

/-- `#define Z_HOVER_ABOVE 2`. -/
def Z_HOVER_ABOVE : ℚ := 2

/-- `#define Z_SEPARATE_DROPLET_ABOVE 5`. -/
def Z_SEPARATE_DROPLET_ABOVE : ℚ := 5

/-- A 2D point in mm. -/
structure Point where
  x : ℚ
  y : ℚ
deriving DecidableEq, Repr

/-- A width/height pair in mm. -/
structure Dim where
  w : ℚ
  h : ℚ
deriving DecidableEq, Repr

/-- A part: component identity (name, footprint, value), board-local target
position and rotation angle in degrees. -/
structure Part where
  component_name : String
  footprint : String
  value : String
  pos : Point
  angle : ℚ
deriving DecidableEq, Repr

/-- A solder pad, in the part-local frame. -/
structure Pad where
  name : String
  pos : Point
  size : Dim
deriving DecidableEq, Repr

/-- Modelled from the spec: the `Tape` class (`tape.h`/`tape.cc` are not under
`src/`).  A component-supply reel: a cursor over the remaining supply
positions, a fixed height above the bed, a fixed reel rotation angle.
`GetPos` returns the next position and advances the cursor; it fails when the
reel is exhausted. -/
structure Tape where
  positions : List Point
  height : ℚ
  angle : ℚ
deriving DecidableEq, Repr

/-- Modelled from the spec: the Tape's mutable next-position query.  Returns
the next supply position together with the advanced tape, or `none` when
exhausted. -/
def Tape.GetPos (t : Tape) : Option (Point × Tape) :=
  match t.positions with
  | [] => none
  | p :: rest => some (p, { t with positions := rest })

/-- Board geometry: top-surface Z height and global origin offset. -/
structure Board where
  top : ℚ
  origin : Point
deriving DecidableEq, Repr

/-- The machine configuration (`PnPConfig`): board geometry, bed level, and
the component-to-tape registry. -/
structure PnPConfig where
  board : Board
  bed_level : ℚ
  tape_for_component : List (String × Tape)
deriving DecidableEq, Repr

/-- The board dimension argument of `Init` (unused by the source body). -/
structure Dimension where
  w : ℚ
  h : ℚ
deriving DecidableEq, Repr

/-- One emitted command block, a constructor per printf template of the
source, carrying the numeric parameters substituted into the template.
Field order follows the template parameter order. -/
inductive Block where
  /-- `; <comment>` line printed by `Init`. -/
  | comment (text : String)
  /-- `gcode_preamble`, parameterized by the clearance height moved to. -/
  | preamble (clearance : ℚ)
  /-- `gcode_pick`: name, feed, x, y, z-move, rotation, z-down, z-up. -/
  | pickCmd (name : String) (feed x y zmove rot zdown zup : ℚ)
  /-- `gcode_place`: name, feed, x, y, z-up, rotation, z-down, z-up. -/
  | placeCmd (name : String) (feed x y zmove rot zdown zup : ℚ)
  /-- `gcode_dispense_move`: component, pad, x, y, hover-z. -/
  | dispenseMove (component pad : String) (x y : ℝ) (z : ℚ)
  /-- `gcode_dispense_paste`: dispense-z, wait-ms, area, separation-z. -/
  | dispensePaste (zdown wait area zup : ℚ)
  /-- `G28 X0 Y0` — home the X/Y axes only. -/
  | homeXY
  /-- `M84` — stop all motors. -/
  | motorsOff

/-- A stderr diagnostic. -/
inductive Diag where
  /-- `"Need configuration"`. -/
  | needConfiguration
  /-- `"Board-thickness = %.1fmm"`. -/
  | boardThickness (t : ℚ)
  /-- `"We are out of components for %s %s"` (footprint, value). -/
  | outOfComponents (footprint value : String)
deriving DecidableEq, Repr

/-- The machine object: the two timing constants and the stored configuration
pointer (`NULL` = `none`). -/
structure GCodeMachine where
  init_ms_ : ℚ
  area_ms_ : ℚ
  config_ : Option PnPConfig

/-- The constructor `GCodeMachine(init_ms, area_ms)`: stores the timing
constants, `config_(NULL)`. -/
def GCodeMachine.new (init_ms area_ms : ℚ) : GCodeMachine :=
  { init_ms_ := init_ms, area_ms_ := area_ms, config_ := none }

/-- The clearance fold of `Init`: `highest_tape` starts at `board.top` and is
maxed with every registered tape's height. -/
def initialClearanceBase (cfg : PnPConfig) : ℚ :=
  cfg.tape_for_component.foldl (fun acc t => max acc t.2.height) cfg.board.top

/-- Result of `GCodeMachine::Init`: the returned bool, the updated machine,
the stdout blocks, the stderr diagnostics. -/
structure InitResult where
  ok : Bool
  machine : GCodeMachine
  blocks : List Block
  diags : List Diag

/-- `GCodeMachine::Init`: stores the configuration; if it is null, reports
`Need configuration` and fails with nothing printed to stdout; otherwise
reports the board thickness on stderr and prints the comment line followed by
the preamble parameterized by `highest_tape + 10`. -/
def GCodeMachine.Init (m : GCodeMachine) (config : Option PnPConfig)
    (init_comment : String) (dim : Dimension) : InitResult :=
  let m' := { m with config_ := config }
  match config with
  | none =>
      { ok := false, machine := m', blocks := [],
        diags := [Diag.needConfiguration] }
  | some cfg =>
      { ok := true, machine := m',
        blocks := [Block.comment init_comment,
                   Block.preamble (initialClearanceBase cfg + 10)],
        diags := [Diag.boardThickness (cfg.board.top - cfg.bed_level)] }

/-- `part.component_name + " (" + part.footprint + "@" + part.value + ")"`. -/
def print_name (part : Part) : String :=
  part.component_name ++ " (" ++ part.footprint ++ "@" ++ part.value ++ ")"

/-- Result of a pick or place call: stdout blocks, stderr diagnostics, and
the tape as it stands after the call. -/
structure OpResult where
  blocks : List Block
  diags : List Diag
  tape : Option Tape

/-- `GCodeMachine::PickPart`.  Null tape: silent no-op.  Exhausted tape:
stderr diagnostic naming footprint and value, no stdout.  Otherwise the tape
cursor advances once and one pick block is emitted.  The dereference of
`config_` happens only on the successful path; with a null configuration that
dereference is undefined behaviour, modelled as `none`. -/
def GCodeMachine.PickPart (m : GCodeMachine) (part : Part)
    (tape : Option Tape) : Option OpResult :=
  match tape with
  | none => some { blocks := [], diags := [], tape := none }
  | some t =>
    match t.GetPos with
    | none =>
        some { blocks := [],
               diags := [Diag.outOfComponents part.footprint part.value],
               tape := some t }
    | some (p, t') =>
      match m.config_ with
      | none => none
      | some cfg =>
        let board_thick := cfg.board.top - cfg.bed_level
        let travel_height := t.height + board_thick + Z_HOVERING
        some { blocks := [Block.pickCmd (print_name part)
                            (60 * TO_TAPE_SPEED)
                            p.x p.y
                            (t.height + Z_HOVERING)
                            (ANGLE_FACTOR * fmod t.angle 360)
                            t.height
                            travel_height],
               diags := [],
               tape := some t' }

/-- `GCodeMachine::PlacePart`.  Null tape: silent no-op.  Otherwise emits one
place block; the tape is only read (height, angle), never advanced.  The
`config_` dereference with a null configuration is undefined behaviour,
modelled as `none`. -/
def GCodeMachine.PlacePart (m : GCodeMachine) (part : Part)
    (tape : Option Tape) : Option OpResult :=
  match tape with
  | none => some { blocks := [], diags := [], tape := none }
  | some t =>
    match m.config_ with
    | none => none
    | some cfg =>
      let board_thick := cfg.board.top - cfg.bed_level
      let travel_height := t.height + board_thick + Z_HOVERING
      some { blocks := [Block.placeCmd (print_name part)
                          (60 * TO_BOARD_SPEED)
                          (part.pos.x + cfg.board.origin.x)
                          (part.pos.y + cfg.board.origin.y)
                          travel_height
                          (ANGLE_FACTOR * fmod (part.angle - t.angle + 360) 360)
                          (t.height + board_thick - TAPE_THICK)
                          travel_height],
             diags := [],
             tape := some t }

/-- `GCodeMachine::Dispense`: rotates the pad offset by the part angle
(converted to radians), translates by board origin and part position, and
emits the move and paste blocks.  The `config_` dereference with a null
configuration is undefined behaviour, modelled as `none`. -/
noncomputable def GCodeMachine.Dispense (m : GCodeMachine) (part : Part)
    (pad : Pad) : Option (List Block) :=
  match m.config_ with
  | none => none
  | some cfg =>
    let angle : ℝ := 2 * Real.pi * (part.angle : ℝ) / 360
    let part_x : ℝ := (cfg.board.origin.x : ℝ) + (part.pos.x : ℝ)
    let part_y : ℝ := (cfg.board.origin.y : ℝ) + (part.pos.y : ℝ)
    let area : ℚ := pad.size.w * pad.size.h
    let pad_x : ℝ := (pad.pos.x : ℝ)
    let pad_y : ℝ := (pad.pos.y : ℝ)
    let x : ℝ := part_x + pad_x * Real.cos angle - pad_y * Real.sin angle
    let y : ℝ := part_y + pad_x * Real.sin angle + pad_y * Real.cos angle
    some [Block.dispenseMove part.component_name pad.name x y
            (cfg.board.top + Z_HOVER_ABOVE),
          Block.dispensePaste (cfg.board.top + Z_DISPENSING_ABOVE)
            (m.init_ms_ + area * m.area_ms_) area
            (cfg.board.top + Z_SEPARATE_DROPLET_ABOVE)]

/-- `GCodeMachine::Finish`: prints `gcode_finish` — home X/Y, stop motors —
reading nothing of the machine state. -/
def GCodeMachine.Finish (m : GCodeMachine) : List Block :=
  [Block.homeXY, Block.motorsOff]

/-- The rotation-axis parameter of a pick or place block, when the block has
one. -/
def Block.rotationArg : Block → Option ℚ
  | .pickCmd _ _ _ _ _ rot _ _ => some rot
  | .placeCmd _ _ _ _ _ rot _ _ => some rot
  | _ => none

lemma qtrunc_of_nonneg {q : ℚ} (h : 0 ≤ q) : qtrunc q = ⌊q⌋ := by
  simp [qtrunc, h]

/-- For a nonnegative dividend, C's `fmod` agrees with the mathematical
modulus. -/
lemma fmod_eq_mathMod {x y : ℚ} (hx : 0 ≤ x) (hy : 0 < y) :
    fmod x y = mathMod x y := by
  unfold fmod mathMod
  rw [qtrunc_of_nonneg (div_nonneg hx hy.le)]

lemma mathMod_eq_fract (x : ℚ) {y : ℚ} (hy : 0 < y) :
    mathMod x y = y * Int.fract (x / y) := by
  unfold mathMod Int.fract
  rw [mul_sub, mul_comm y (x / y), div_mul_cancel₀ x hy.ne']

lemma mathMod_nonneg (x : ℚ) {y : ℚ} (hy : 0 < y) : 0 ≤ mathMod x y := by
  rw [mathMod_eq_fract x hy]
  exact mul_nonneg hy.le (Int.fract_nonneg _)

lemma mathMod_lt (x : ℚ) {y : ℚ} (hy : 0 < y) : mathMod x y < y := by
  rw [mathMod_eq_fract x hy]
  calc y * Int.fract (x / y) < y * 1 :=
        (mul_lt_mul_left hy).mpr (Int.fract_lt_one _)
    _ = y := mul_one y

lemma le_foldl_max_height (l : List (String × Tape)) (a : ℚ) :
    a ≤ l.foldl (fun acc t => max acc t.2.height) a := by
  induction l generalizing a with
  | nil => exact le_refl a
  | cons q l ih =>
      exact le_trans (le_max_left a q.2.height) (ih (max a q.2.height))

lemma mem_le_foldl_max_height (l : List (String × Tape)) (a : ℚ)
    (p : String × Tape) (hp : p ∈ l) :
    p.2.height ≤ l.foldl (fun acc t => max acc t.2.height) a := by
  induction l generalizing a with
  | nil => cases hp
  | cons q l ih =>
      rcases List.mem_cons.mp hp with h | h
      · subst h
        exact le_trans (le_max_right a p.2.height)
          (le_foldl_max_height l (max a p.2.height))
      · exact ih (max a q.2.height) h

lemma foldl_max_height_cases (l : List (String × Tape)) (a : ℚ) :
    l.foldl (fun acc t => max acc t.2.height) a = a
    ∨ ∃ p ∈ l, l.foldl (fun acc t => max acc t.2.height) a = p.2.height := by
  induction l generalizing a with
  | nil => exact Or.inl rfl
  | cons q l ih =>
      rcases ih (max a q.2.height) with h | ⟨p, hp, h⟩
      · rcases max_cases a q.2.height with ⟨he, _⟩ | ⟨he, _⟩
        · exact Or.inl (by rw [List.foldl_cons, h, he])
        · exact Or.inr ⟨q, List.mem_cons_self q l,
            by rw [List.foldl_cons, h, he]⟩
      · exact Or.inr ⟨p, List.mem_cons_of_mem q hp,
          by rw [List.foldl_cons, h]⟩

/-- **C2.**  `Init` fails iff the supplied configuration is absent, and then
emits nothing to stdout; otherwise it emits exactly the comment line and one
setup block whose clearance parameter is `initialClearanceBase cfg + 10`,
where `initialClearanceBase cfg` is `max` of `board.top` and every registered
tape's height (so it is `≥ board.top`, `≥` every tape height, attained at one
of them, and equal to `board.top` when the registry is empty). -/
theorem init_spec :
    (∀ (m : GCodeMachine) (c : String) (d : Dimension),
        (m.Init none c d).ok = false ∧ (m.Init none c d).blocks = [])
    ∧ (∀ (m : GCodeMachine) (cfg : PnPConfig) (c : String) (d : Dimension),
        (m.Init (some cfg) c d).ok = true
        ∧ (m.Init (some cfg) c d).blocks
            = [Block.comment c, Block.preamble (initialClearanceBase cfg + 10)]
        ∧ cfg.board.top + 10 ≤ initialClearanceBase cfg + 10
        ∧ (∀ p ∈ cfg.tape_for_component,
             p.2.height + 10 ≤ initialClearanceBase cfg + 10)
        ∧ (initialClearanceBase cfg = cfg.board.top
           ∨ ∃ p ∈ cfg.tape_for_component,
               initialClearanceBase cfg = p.2.height)
        ∧ (cfg.tape_for_component = [] →
             initialClearanceBase cfg = cfg.board.top)) := by
  refine ⟨fun m c d => ⟨rfl, rfl⟩, fun m cfg c d => ⟨rfl, rfl, ?_, ?_, ?_, ?_⟩⟩
  · have := le_foldl_max_height cfg.tape_for_component cfg.board.top
    unfold initialClearanceBase
    linarith
  · intro p hp
    have := mem_le_foldl_max_height cfg.tape_for_component cfg.board.top p hp
    unfold initialClearanceBase
    linarith
  · exact foldl_max_height_cases cfg.tape_for_component cfg.board.top
  · intro h
    unfold initialClearanceBase
    rw [h]
    rfl

/-- Witness for C2 at a concrete input: a configuration with an empty tape
registry and `board.top = 6` gets clearance base 6 (so clearance 16), with
the empty-registry hypothesis discharged at `rfl`. -/
theorem init_spec_witness :
    initialClearanceBase
        { board := { top := 6, origin := { x := 0, y := 0 } },
          bed_level := 5, tape_for_component := [] } = 6 :=
  (init_spec.2 (GCodeMachine.new 100 10)
      { board := { top := 6, origin := { x := 0, y := 0 } },
        bed_level := 5, tape_for_component := [] }
      "run" { w := 0, h := 0 }).2.2.2.2.2 rfl

/-- **C5.**  A successful pick emits one block whose final ascend parameter
is `tape.height + (board.top − bed_level) + 10`; whenever the tape height and
the board thickness are nonnegative (the hover clearance is the constant
10 ≥ 0), that ascend height is at least the descend height `tape.height`. -/
theorem pick_travel_height (m : GCodeMachine) (cfg : PnPConfig) (part : Part)
    (t : Tape) (p : Point) (rest : List Point)
    (hc : m.config_ = some cfg) (ht : t.positions = p :: rest) :
    (m.PickPart part (some t)).map (fun r => r.blocks)
      = some [Block.pickCmd (print_name part) (60 * TO_TAPE_SPEED) p.x p.y
                (t.height + Z_HOVERING)
                (ANGLE_FACTOR * fmod t.angle 360)
                t.height
                (t.height + (cfg.board.top - cfg.bed_level) + 10)]
    ∧ (0 ≤ t.height → 0 ≤ cfg.board.top - cfg.bed_level →
        t.height ≤ t.height + (cfg.board.top - cfg.bed_level) + 10) := by
  constructor
  · simp [GCodeMachine.PickPart, Tape.GetPos, ht, hc, Z_HOVERING]
  · intro h1 h2
    linarith

/-- Witness for C5 at the spec's example: tape.height = 5, board.top = 6,
bed_level = 5 gives travel height 16. -/
theorem pick_travel_height_witness :
    (((GCodeMachine.mk 0 0
          (some { board := { top := 6, origin := { x := 0, y := 0 } },
                  bed_level := 5, tape_for_component := [] })).PickPart
        { component_name := "C7", footprint := "0805", value := "100n",
          pos := { x := 0, y := 0 }, angle := 0 }
        (some { positions := [{ x := 1, y := 2 }], height := 5, angle := 0 })).map
        (fun r => r.blocks)
      = some [Block.pickCmd "C7 (0805@100n)" (60 * TO_TAPE_SPEED) 1 2
                (5 + Z_HOVERING) (ANGLE_FACTOR * fmod 0 360) 5
                (5 + ((6 : ℚ) - 5) + 10)])
    ∧ 5 + ((6 : ℚ) - 5) + 10 = 16
    ∧ (5 : ℚ) ≤ 5 + ((6 : ℚ) - 5) + 10 := by
  have h := pick_travel_height (GCodeMachine.mk 0 0
      (some { board := { top := 6, origin := { x := 0, y := 0 } },
              bed_level := 5, tape_for_component := [] }))
      { board := { top := 6, origin := { x := 0, y := 0 } },
        bed_level := 5, tape_for_component := [] }
      { component_name := "C7", footprint := "0805", value := "100n",
        pos := { x := 0, y := 0 }, angle := 0 }
      { positions := [{ x := 1, y := 2 }], height := 5, angle := 0 }
      { x := 1, y := 2 } [] rfl rfl
  exact ⟨h.1, by norm_num, h.2 (by norm_num) (by norm_num)⟩

/-- **C1** (counterexample).  With part.angle = 0 and tape.angle = 400 the
raw delta 0 − 400 + 360 = −40 is negative; C's `fmod` leaves it at −40, so
the emitted place rotation is `ANGLE_FACTOR * (−40)`, which differs from
`ANGLE_FACTOR` times the mathematical modulus (320). -/
theorem place_angle_mathmod_counterexample :
    (((GCodeMachine.mk 0 0
          (some { board := { top := 0, origin := { x := 0, y := 0 } },
                  bed_level := 0, tape_for_component := [] })).PlacePart
        { component_name := "U1", footprint := "f", value := "v",
          pos := { x := 0, y := 0 }, angle := 0 }
        (some { positions := [], height := 0, angle := 400 })).map
        (fun r => r.blocks.map Block.rotationArg)
      = some [some (ANGLE_FACTOR * (-40))])
    ∧ mathMod (0 - 400 + 360) 360 = 320
    ∧ ANGLE_FACTOR * (-40) ≠ ANGLE_FACTOR * mathMod (0 - 400 + 360) 360 := by
  have h40 : ((0 : ℚ) - 400 + 360) = -40 := by norm_num
  have hfl : ⌊((-40 : ℚ)) / 360⌋ = -1 := by
    rw [Int.floor_eq_iff]
    constructor
    · norm_num
    · norm_num
  have hm : mathMod ((0 : ℚ) - 400 + 360) 360 = 320 := by
    rw [h40, mathMod, hfl]
    norm_num
  have hce : ⌈((-40 : ℚ)) / 360⌉ = 0 := by
    rw [Int.ceil_eq_iff]
    constructor
    · norm_num
    · norm_num
  have hf : fmod (-40 : ℚ) 360 = -40 := by
    rw [fmod, qtrunc, if_neg (by norm_num), hce]
    norm_num
  refine ⟨?_, hm, ?_⟩
  · norm_num [GCodeMachine.PlacePart, Block.rotationArg, hf]
  · rw [hm]
    norm_num [ANGLE_FACTOR]

/-- **C1** (amended).  Whenever `part.angle − tape.angle + 360 ≥ 0` — in
particular for all angle pairs with `part.angle − tape.angle ≥ −360` — the
place block's rotation equals `ANGLE_FACTOR` times the mathematical modulus
`(part.angle − tape.angle + 360) mod 360 ∈ [0, 360)`; outside that range C's
`fmod` returns a negative remainder instead. -/
theorem place_angle_rotation (m : GCodeMachine) (cfg : PnPConfig)
    (part : Part) (t : Tape)
    (hc : m.config_ = some cfg) (h : 0 ≤ part.angle - t.angle + 360) :
    (m.PlacePart part (some t)).map (fun r => r.blocks.map Block.rotationArg)
      = some [some (ANGLE_FACTOR * mathMod (part.angle - t.angle + 360) 360)] := by
  have he : fmod (part.angle - t.angle + 360) 360
      = mathMod (part.angle - t.angle + 360) 360 :=
    fmod_eq_mathMod h (by norm_num)
  simp [GCodeMachine.PlacePart, hc, Block.rotationArg, he]

/-- Witness for C1 at the spec's example: part.angle = 30, tape.angle = 350
gives raw delta 40 and emitted rotation `40 * ANGLE_FACTOR`. -/
theorem place_angle_rotation_witness :
    (((GCodeMachine.mk 0 0
          (some { board := { top := 0, origin := { x := 0, y := 0 } },
                  bed_level := 0, tape_for_component := [] })).PlacePart
        { component_name := "U1", footprint := "f", value := "v",
          pos := { x := 0, y := 0 }, angle := 30 }
        (some { positions := [], height := 0, angle := 350 })).map
        (fun r => r.blocks.map Block.rotationArg)
      = some [some (ANGLE_FACTOR * mathMod (30 - 350 + 360) 360)])
    ∧ ANGLE_FACTOR * mathMod (30 - 350 + 360) 360 = 40 * ANGLE_FACTOR := by
  have hfl : ⌊((30 : ℚ) - 350 + 360) / 360⌋ = 0 := by
    rw [Int.floor_eq_iff]
    constructor
    · norm_num
    · norm_num
  have hm : mathMod ((30 : ℚ) - 350 + 360) 360 = 40 := by
    rw [mathMod, hfl]
    norm_num
  refine ⟨place_angle_rotation _ _ _ _ rfl (by norm_num), ?_⟩
  rw [hm]
  ring

/-- **C4** (counterexample).  For tape.angle = −90 the pick block's rotation
is `ANGLE_FACTOR * (−90)`: C's `fmod` leaves the negative remainder −90,
which is not in [0,360) (the normalized value would be 270). -/
theorem pick_angle_normalization_counterexample :
    (((GCodeMachine.mk 0 0
          (some { board := { top := 0, origin := { x := 0, y := 0 } },
                  bed_level := 0, tape_for_component := [] })).PickPart
        { component_name := "U1", footprint := "f", value := "v",
          pos := { x := 0, y := 0 }, angle := 0 }
        (some { positions := [{ x := 0, y := 0 }], height := 0,
                angle := -90 })).map
        (fun r => r.blocks.map Block.rotationArg)
      = some [some (ANGLE_FACTOR * (-90))])
    ∧ fmod (-90 : ℚ) 360 = -90
    ∧ ¬ (0 : ℚ) ≤ fmod (-90 : ℚ) 360
    ∧ mathMod (-90 : ℚ) 360 = 270 := by
  have hce : ⌈((-90 : ℚ)) / 360⌉ = 0 := by
    rw [Int.ceil_eq_iff]
    constructor
    · norm_num
    · norm_num
  have hf : fmod (-90 : ℚ) 360 = -90 := by
    rw [fmod, qtrunc, if_neg (by norm_num), hce]
    norm_num
  have hfl : ⌊((-90 : ℚ)) / 360⌋ = -1 := by
    rw [Int.floor_eq_iff]
    constructor
    · norm_num
    · norm_num
  have hm : mathMod (-90 : ℚ) 360 = 270 := by
    rw [mathMod, hfl]
    norm_num
  refine ⟨?_, hf, ?_, hm⟩
  · norm_num [GCodeMachine.PickPart, Tape.GetPos, Block.rotationArg, hf]
  · rw [hf]
    norm_num

/-- **C4** (amended).  The source reduces angles with C's `fmod` (truncated
remainder), not a normalization into [0,360).  For a nonnegative tape angle
the pick rotation does equal `ANGLE_FACTOR` times the mathematical modulus,
which lies in [0,360); and whenever `part.angle − tape.angle + 360 ≥ 0` the
place block's raw relative angle `fmod (part.angle − tape.angle + 360) 360`
lies in [0,360).  For negative inputs `fmod` returns a negative remainder. -/
theorem angle_normalization (m : GCodeMachine) (cfg : PnPConfig) (part : Part)
    (t : Tape) (p : Point) (rest : List Point)
    (hc : m.config_ = some cfg) (ht : t.positions = p :: rest) :
    (0 ≤ t.angle →
       (m.PickPart part (some t)).map (fun r => r.blocks.map Block.rotationArg)
         = some [some (ANGLE_FACTOR * mathMod t.angle 360)]
       ∧ 0 ≤ mathMod t.angle 360 ∧ mathMod t.angle 360 < 360)
    ∧ (0 ≤ part.angle - t.angle + 360 →
       0 ≤ fmod (part.angle - t.angle + 360) 360
       ∧ fmod (part.angle - t.angle + 360) 360 < 360) := by
  constructor
  · intro ha
    have he : fmod t.angle 360 = mathMod t.angle 360 :=
      fmod_eq_mathMod ha (by norm_num)
    refine ⟨?_, mathMod_nonneg t.angle (by norm_num),
      mathMod_lt t.angle (by norm_num)⟩
    simp [GCodeMachine.PickPart, Tape.GetPos, ht, hc, Block.rotationArg, he]
  · intro hd
    have he : fmod (part.angle - t.angle + 360) 360
        = mathMod (part.angle - t.angle + 360) 360 :=
      fmod_eq_mathMod hd (by norm_num)
    rw [he]
    exact ⟨mathMod_nonneg _ (by norm_num), mathMod_lt _ (by norm_num)⟩

/-- Witness for C4: tape.angle = 30 gives pick rotation
`ANGLE_FACTOR * mathMod 30 360` with `mathMod 30 360 ∈ [0,360)`, and part
angle 0 against tape angle 30 gives a place raw angle in [0,360). -/
theorem angle_normalization_witness :
    (((GCodeMachine.mk 0 0
          (some { board := { top := 0, origin := { x := 0, y := 0 } },
                  bed_level := 0, tape_for_component := [] })).PickPart
        { component_name := "U1", footprint := "f", value := "v",
          pos := { x := 0, y := 0 }, angle := 0 }
        (some { positions := [{ x := 0, y := 0 }], height := 0,
                angle := 30 })).map
        (fun r => r.blocks.map Block.rotationArg)
      = some [some (ANGLE_FACTOR * mathMod 30 360)])
    ∧ 0 ≤ mathMod (30 : ℚ) 360 ∧ mathMod (30 : ℚ) 360 < 360
    ∧ 0 ≤ fmod ((0 : ℚ) - 30 + 360) 360
    ∧ fmod ((0 : ℚ) - 30 + 360) 360 < 360 := by
  have h := angle_normalization
      (GCodeMachine.mk 0 0
          (some { board := { top := 0, origin := { x := 0, y := 0 } },
                  bed_level := 0, tape_for_component := [] }))
      { board := { top := 0, origin := { x := 0, y := 0 } },
        bed_level := 0, tape_for_component := [] }
      { component_name := "U1", footprint := "f", value := "v",
        pos := { x := 0, y := 0 }, angle := 0 }
      { positions := [{ x := 0, y := 0 }], height := 0, angle := 30 }
      { x := 0, y := 0 } [] rfl rfl
  have h1 := h.1 (by norm_num)
  have h2 := h.2 (by norm_num)
  exact ⟨h1.1, h1.2.1, h1.2.2, h2.1, h2.2⟩

/-- **C3** (counterexample).  The exhausted-tape diagnostic carries only the
footprint and the value: two parts that differ only in their component name
produce identical results (identical diagnostics included), so the diagnostic
does not identify the component by its component name. -/
theorem pick_exhausted_diag_counterexample :
    ((GCodeMachine.new 0 0).PickPart
        { component_name := "C1", footprint := "0805", value := "100n",
          pos := { x := 0, y := 0 }, angle := 0 }
        (some { positions := [], height := 0, angle := 0 }))
      = ((GCodeMachine.new 0 0).PickPart
        { component_name := "C2", footprint := "0805", value := "100n",
          pos := { x := 0, y := 0 }, angle := 0 }
        (some { positions := [], height := 0, angle := 0 }))
    ∧ ("C1" : String) ≠ "C2" := by
  exact ⟨rfl, by decide⟩

/-- **C3** (amended).  A pick on a non-null exhausted tape emits zero command
blocks, emits the diagnostic identifying the component by footprint and value
(the component name is not part of the diagnostic), and returns the tape
unchanged, so the output stream continues exactly as if the call had not
happened. -/
theorem pick_exhausted_skip (m : GCodeMachine) (part : Part) (t : Tape)
    (h : t.positions = []) :
    m.PickPart part (some t)
      = some { blocks := [],
               diags := [Diag.outOfComponents part.footprint part.value],
               tape := some t } := by
  simp [GCodeMachine.PickPart, Tape.GetPos, h]

/-- Witness for C3 at a concrete exhausted tape. -/
theorem pick_exhausted_skip_witness :
    (GCodeMachine.new 0 0).PickPart
        { component_name := "C3", footprint := "0603", value := "1k",
          pos := { x := 0, y := 0 }, angle := 0 }
        (some { positions := [], height := 2, angle := 0 })
      = some { blocks := [],
               diags := [Diag.outOfComponents "0603" "1k"],
               tape := some { positions := [], height := 2, angle := 0 } } :=
  pick_exhausted_skip (GCodeMachine.new 0 0)
    { component_name := "C3", footprint := "0603", value := "1k",
      pos := { x := 0, y := 0 }, angle := 0 }
    { positions := [], height := 2, angle := 0 } rfl

/-- **C6.**  The dispense target is `board.origin + part.position` plus the
pad offset rotated by `θ = 2π·part.angle/360` via
`x' = pad.x·cosθ − pad.y·sinθ`, `y' = pad.x·sinθ + pad.y·cosθ`; and for any
`θ` that rotation preserves the magnitude of the offset. -/
theorem dispense_target (i a : ℚ) (cfg : PnPConfig) (part : Part) (pad : Pad) :
    (GCodeMachine.mk i a (some cfg)).Dispense part pad
      = some [Block.dispenseMove part.component_name pad.name
                (((cfg.board.origin.x : ℝ) + (part.pos.x : ℝ))
                  + ((pad.pos.x : ℝ)
                        * Real.cos (2 * Real.pi * (part.angle : ℝ) / 360)
                     - (pad.pos.y : ℝ)
                        * Real.sin (2 * Real.pi * (part.angle : ℝ) / 360)))
                (((cfg.board.origin.y : ℝ) + (part.pos.y : ℝ))
                  + ((pad.pos.x : ℝ)
                        * Real.sin (2 * Real.pi * (part.angle : ℝ) / 360)
                     + (pad.pos.y : ℝ)
                        * Real.cos (2 * Real.pi * (part.angle : ℝ) / 360)))
                (cfg.board.top + Z_HOVER_ABOVE),
              Block.dispensePaste (cfg.board.top + Z_DISPENSING_ABOVE)
                (i + pad.size.w * pad.size.h * a) (pad.size.w * pad.size.h)
                (cfg.board.top + Z_SEPARATE_DROPLET_ABOVE)]
    ∧ ∀ θ px py : ℝ,
        Real.sqrt ((px * Real.cos θ - py * Real.sin θ) ^ 2
            + (px * Real.sin θ + py * Real.cos θ) ^ 2)
          = Real.sqrt (px ^ 2 + py ^ 2) := by
  constructor
  · simp only [GCodeMachine.Dispense]
    rw [add_sub_assoc, add_assoc,
      add_assoc ((cfg.board.origin.y : ℝ) + (part.pos.y : ℝ))]
  · intro θ px py
    congr 1
    linear_combination (px ^ 2 + py ^ 2) * Real.sin_sq_add_cos_sq θ

/-- **C7.**  The tape cursor is advanced by exactly one `GetPos` query per
successful pick: `GetPos` on a non-exhausted tape pops exactly the head of
the remaining positions, `PickPart` returns exactly that once-advanced tape,
`PlacePart` returns the tape it was given unchanged (it only reads height and
angle), and `Init` stores the configuration — tapes included — exactly as
given.  `Dispense` and `Finish` receive no tape and return none, so they
cannot touch one. -/
theorem tape_mutation_frame (m : GCodeMachine) (cfg : PnPConfig) (part : Part)
    (t : Tape) (p : Point) (rest : List Point)
    (hc : m.config_ = some cfg) (ht : t.positions = p :: rest) :
    t.GetPos = some (p, { t with positions := rest })
    ∧ (m.PickPart part (some t)).map (fun r => r.tape)
        = some (some { t with positions := rest })
    ∧ (m.PlacePart part (some t)).map (fun r => r.tape) = some (some t)
    ∧ (∀ (config : Option PnPConfig) (c : String) (d : Dimension),
         ((m.Init config c d).machine).config_ = config) := by
  refine ⟨?_, ?_, ?_, ?_⟩
  · simp [Tape.GetPos, ht]
  · simp [GCodeMachine.PickPart, Tape.GetPos, ht, hc]
  · simp [GCodeMachine.PlacePart, hc]
  · intro config c d
    cases config with
    | none => rfl
    | some cfg2 => rfl

/-- Witness for C7 at a concrete machine, tape and part. -/
theorem tape_mutation_frame_witness :
    Tape.GetPos { positions := [{ x := 3, y := 4 }], height := 1, angle := 0 }
      = some ({ x := 3, y := 4 },
              { positions := [], height := 1, angle := 0 }) :=
  (tape_mutation_frame
    (GCodeMachine.mk 0 0
        (some { board := { top := 0, origin := { x := 0, y := 0 } },
                bed_level := 0, tape_for_component := [] }))
    { board := { top := 0, origin := { x := 0, y := 0 } },
      bed_level := 0, tape_for_component := [] }
    { component_name := "U2", footprint := "f", value := "v",
      pos := { x := 0, y := 0 }, angle := 0 }
    { positions := [{ x := 3, y := 4 }], height := 1, angle := 0 }
    { x := 3, y := 4 } [] rfl rfl).1

/-- **C9.**  `Finish` reads nothing of the machine state and always emits the
same fixed block: home X/Y only, then disable all motors.  Because every
effect of prior pick/place/dispense calls is confined to the machine state
and the tapes, quantifying over the whole machine state covers any count and
order of prior calls. -/
theorem finish_fixed :
    ∀ (m m' : GCodeMachine),
      m.Finish = [Block.homeXY, Block.motorsOff] ∧ m.Finish = m'.Finish :=
  fun m m' => ⟨rfl, rfl⟩

/-- **C8.**  Before a successful `Init` the stored configuration is null and
a pick (with a non-exhausted tape), place (with a tape) or dispense call
dereferences it with no guard: the result is undefined (`none`), there is no
defined error path.  After an `Init` that returned success the stored
configuration is non-null and every such access is defined (`isSome`). -/
theorem config_access_safety (i a : ℚ) (part : Part) (pad : Pad) (t : Tape)
    (p : Point) (rest : List Point) (ht : t.positions = p :: rest) :
    (GCodeMachine.new i a).config_ = none
    ∧ (GCodeMachine.new i a).PickPart part (some t) = none
    ∧ (GCodeMachine.new i a).PlacePart part (some t) = none
    ∧ (GCodeMachine.new i a).Dispense part pad = none
    ∧ (∀ (m : GCodeMachine) (config : Option PnPConfig) (c : String)
         (d : Dimension),
        (m.Init config c d).ok = true →
        ∃ cfg, (m.Init config c d).machine.config_ = some cfg
          ∧ ((m.Init config c d).machine.PickPart part (some t)).isSome
          ∧ ((m.Init config c d).machine.PlacePart part (some t)).isSome
          ∧ ((m.Init config c d).machine.Dispense part pad).isSome) := by
  refine ⟨rfl, ?_, ?_, ?_, ?_⟩
  · simp [GCodeMachine.PickPart, Tape.GetPos, ht, GCodeMachine.new]
  · simp [GCodeMachine.PlacePart, GCodeMachine.new]
  · simp [GCodeMachine.Dispense, GCodeMachine.new]
  · intro m config c d hok
    cases config with
    | none => exact absurd hok (by simp [GCodeMachine.Init])
    | some cfg =>
        refine ⟨cfg, rfl, ?_, ?_, ?_⟩
        · simp [GCodeMachine.PickPart, Tape.GetPos, ht, GCodeMachine.Init]
        · simp [GCodeMachine.PlacePart, GCodeMachine.Init]
        · simp [GCodeMachine.Dispense, GCodeMachine.Init]

/-- Witness for C8 at a concrete part, pad and non-exhausted tape. -/
theorem config_access_safety_witness :
    (GCodeMachine.new 7 9).PickPart
        { component_name := "U3", footprint := "f", value := "v",
          pos := { x := 0, y := 0 }, angle := 0 }
        (some { positions := [{ x := 1, y := 1 }], height := 0, angle := 0 })
      = none :=
  (config_access_safety 7 9
    { component_name := "U3", footprint := "f", value := "v",
      pos := { x := 0, y := 0 }, angle := 0 }
    { name := "1", pos := { x := 0, y := 0 }, size := { w := 1, h := 1 } }
    { positions := [{ x := 1, y := 1 }], height := 0, angle := 0 }
    { x := 1, y := 1 } [] rfl).2.1

/-- **C10.**  `PlacePart` with a non-null tape and `Dispense` emit their full
block(s) unconditionally: the place output is independent of the tape's
remaining positions (no exhaustion check — in particular it is unchanged for
an exhausted tape, as after a skipped pick, which itself emits no blocks),
and `Dispense` always emits exactly its two blocks. -/
theorem place_dispense_unconditional (i a : ℚ) (cfg : PnPConfig) (part : Part)
    (t : Tape) (ps : List Point) (pad : Pad) :
    ((GCodeMachine.mk i a (some cfg)).PlacePart part (some t)).map
        (fun r => r.blocks)
      = ((GCodeMachine.mk i a (some cfg)).PlacePart part
           (some { t with positions := ps })).map (fun r => r.blocks)
    ∧ ((GCodeMachine.mk i a (some cfg)).PlacePart part (some t)).map
        (fun r => r.blocks)
      = some [Block.placeCmd (print_name part) (60 * TO_BOARD_SPEED)
                (part.pos.x + cfg.board.origin.x)
                (part.pos.y + cfg.board.origin.y)
                (t.height + (cfg.board.top - cfg.bed_level) + Z_HOVERING)
                (ANGLE_FACTOR * fmod (part.angle - t.angle + 360) 360)
                (t.height + (cfg.board.top - cfg.bed_level) - TAPE_THICK)
                (t.height + (cfg.board.top - cfg.bed_level) + Z_HOVERING)]
    ∧ ((GCodeMachine.mk i a (some cfg)).PickPart part
          (some { t with positions := [] })).map (fun r => r.blocks)
        = some []
    ∧ ∃ b1 b2, (GCodeMachine.mk i a (some cfg)).Dispense part pad
        = some [b1, b2] := by
  refine ⟨rfl, ?_, ?_, ?_⟩
  · simp [GCodeMachine.PlacePart]
  · simp [GCodeMachine.PickPart, Tape.GetPos]
  · exact ⟨_, _, rfl⟩

end Rpt2pnp
